import Mathlib

/-!
# FutureBox — Action-Gated Agentic Orchestrator: shallow embedding

A shallow embedding of the server core of the FutureBox gateway:
the action repository and trust-tier policy engine
(`action.repository`, `trust-rule.repository`, `action.service`),
the capability router with fallback (`model-router.service`),
the tool-calling orchestrator (`chat.service`: `executeTool`,
`sendMessage`, `streamMessage`) and the chat WebSocket handler
(`chat.handler`).

Conventions of the embedding:
* timestamps are naturals (milliseconds);
* the SQLite tables are lists of rows; an `UPDATE ... WHERE p`
  maps the update over the rows satisfying `p` and reports the
  number of changed rows, as the driver does;
* external collaborators that live outside the embedded sources
  (model backends, `JSON.parse`, the skills registry) are parameters
  of the embedded functions;
* asynchronous generators are embedded as functions producing the
  list of yielded chunks; the lazy pull-by-pull consumption done by
  the WebSocket handler is a separate consumer over that list.
-/

set_option autoImplicit false

namespace FutureBox

/-! ## Core enumerations (`action.repository.ts`, `trust-rule.repository.ts`) -/

/-- `tier` of an Action: `'red' | 'yellow' | 'green'`. -/
inductive ActionTier where
  | red | yellow | green
deriving DecidableEq, Repr

/-- `status` of an Action: `'pending' | 'approved' | 'denied' | 'expired'`. -/
inductive ActionStatus where
  | pending | approved | denied | expired
deriving DecidableEq, Repr

/-- `decision` of a TrustRule: `'auto_approve' | 'auto_deny' | 'ask'`. -/
inductive TrustDecision where
  | auto_approve | auto_deny | ask
deriving DecidableEq, Repr

/-! ## Action repository (source: `action.repository`, `src/unnamed/part_004`) -/

/-- A row of the `actions` table (interface `Action`). -/
structure Action where
  id : String
  conversation_id : Option String
  type : String
  tier : ActionTier
  title : String
  description : Option String
  payload : Option String
  status : ActionStatus
  created_at : Nat
  resolved_at : Option Nat
deriving DecidableEq, Repr

/-- The `actions` table: a list of rows. -/
structure ActionStore where
  rows : List Action
deriving DecidableEq, Repr

/-- `createAction`: INSERT with `status` defaulting to `pending`,
`created_at` to the current time, `resolved_at` to NULL. -/
def createAction (st : ActionStore) (now : Nat) (id : String)
    (conversation_id : Option String) (type : String) (tier : ActionTier)
    (title : String) (description : Option String) (payload : Option String) :
    ActionStore :=
  let row : Action :=
    { id := id, conversation_id := conversation_id, type := type, tier := tier,
      title := title, description := description, payload := payload,
      status := ActionStatus.pending, created_at := now, resolved_at := none }
  { rows := st.rows ++ [row] }

/-- `getAction`: `SELECT * FROM actions WHERE id = ?` (first row). -/
def getAction (st : ActionStore) (id : String) : Option Action :=
  st.rows.find? (fun a => a.id == id)

/-- `listPendingActions`: all rows with `status = 'pending'`. -/
def listPendingActions (st : ActionStore) : List Action :=
  st.rows.filter (fun a => a.status == ActionStatus.pending)

/-- `approveAction`: `UPDATE actions SET status='approved',
resolved_at=now WHERE id = ? AND status = 'pending'`; returns the
updated table and whether `changes > 0`. -/
def approveAction (st : ActionStore) (now : Nat) (id : String) :
    ActionStore × Bool :=
  let hit := fun (a : Action) => a.id == id && a.status == ActionStatus.pending
  let rows := st.rows.map (fun a =>
    if hit a then { a with status := ActionStatus.approved, resolved_at := some now }
    else a)
  (⟨rows⟩, st.rows.any hit)

/-- `denyAction`: `UPDATE actions SET status='denied', resolved_at=now
WHERE id = ? AND status = 'pending'`; returns the updated table and
whether `changes > 0`. -/
def denyAction (st : ActionStore) (now : Nat) (id : String) :
    ActionStore × Bool :=
  let hit := fun (a : Action) => a.id == id && a.status == ActionStatus.pending
  let rows := st.rows.map (fun a =>
    if hit a then { a with status := ActionStatus.denied, resolved_at := some now }
    else a)
  (⟨rows⟩, st.rows.any hit)

/-- `expireOldActions(maxAgeMs)`: `UPDATE actions SET status='expired',
resolved_at=now WHERE status='pending' AND created_at < now - maxAgeMs`;
returns the updated table and the number of changed rows. -/
def expireOldActions (st : ActionStore) (now : Nat) (maxAgeMs : Nat) :
    ActionStore × Nat :=
  let hit := fun (a : Action) =>
    a.status == ActionStatus.pending && a.created_at + maxAgeMs < now
  let rows := st.rows.map (fun a =>
    if hit a then { a with status := ActionStatus.expired, resolved_at := some now }
    else a)
  (⟨rows⟩, (st.rows.filter hit).length)

/-! ## Trust-rule repository (source: `trust-rule.repository.ts`) -/

/-- A row of the `trust_rules` table (interface `TrustRule`). -/
structure TrustRule where
  id : String
  service : String
  action : String
  decision : TrustDecision
deriving DecidableEq, Repr

/-- `createTrustRule`: `INSERT ... ON CONFLICT(service, action) DO
UPDATE SET decision = excluded.decision` — if a row with the same
(service, action) key exists its decision is replaced, otherwise a new
row is appended. -/
def createTrustRule (rules : List TrustRule) (id service action : String)
    (decision : TrustDecision) : List TrustRule :=
  if rules.any (fun r => r.service == service && r.action == action) then
    rules.map (fun r =>
      if r.service == service && r.action == action then
        { r with decision := decision }
      else r)
  else
    rules ++ [{ id := id, service := service, action := action, decision := decision }]

/-- `findTrustRule`: exact (service, action) match first, then the
wildcard-service (`'*'`) match for that action. -/
def findTrustRule (rules : List TrustRule) (service action : String) :
    Option TrustRule :=
  match rules.find? (fun r => r.service == service && r.action == action) with
  | some r => some r
  | none => rules.find? (fun r => r.service == "*" && r.action == action)

/-- The conflict key of a trust rule: its `(service, action)` pair. -/
def ruleKey (r : TrustRule) : String × String := (r.service, r.action)

/-! ## Action service (source: `action.service.ts`) -/

/-- `ACTION_TIMEOUT_MS = 24 * 60 * 60 * 1000` — maximum age before the
periodic sweep expires a pending action. -/
def ACTION_TIMEOUT_MS : Nat := 24 * 60 * 60 * 1000

/-- Payload of a `notification.action` broadcast sent by `submitAction`. -/
structure ActionNotification where
  action_id : String
  type : String
  tier : ActionTier
  title : String
  description : Option String
deriving DecidableEq, Repr

/-- State touched by the action service: the `actions` table, the
`trust_rules` table, and the log of `notification.action` broadcasts
sent through `wsManager.broadcast`. -/
structure GateState where
  actions : ActionStore
  rules : List TrustRule
  broadcasts : List ActionNotification
deriving Repr

/-- `SubmitActionRequest`. -/
structure SubmitActionRequest where
  type : String
  tier : ActionTier
  title : String
  description : Option String
  payload : Option String
  conversationId : Option String
deriving Repr

/-- The `decision` of an `ActionResult`. -/
inductive Decision where
  | auto_approved | auto_denied | pending
deriving DecidableEq, Repr

/-- `ActionResult`: decision plus the action record it refers to. -/
structure ActionResult where
  decision : Decision
  action : Action
deriving Repr

/-- `req.type.split('.')[0]` — the service part of an action type: the
prefix before the first `'.'`, or the whole string when there is none. -/
def serviceOf (type : String) : String :=
  ⟨type.data.takeWhile (fun c => c ≠ '.')⟩

/-- `submitAction`: checks trust rules, creates the Action row, then
auto-approves green tier, applies an `auto_approve`/`auto_deny` rule,
or leaves the action pending and broadcasts a `notification.action`. -/
def submitAction (st : GateState) (now : Nat) (id : String)
    (req : SubmitActionRequest) : ActionResult × GateState :=
  let rule := findTrustRule st.rules (serviceOf req.type) req.type
  let actions1 := createAction st.actions now id req.conversationId req.type
    req.tier req.title req.description req.payload
  let inserted : Action :=
    { id := id, conversation_id := req.conversationId, type := req.type,
      tier := req.tier, title := req.title, description := req.description,
      payload := req.payload, status := ActionStatus.pending,
      created_at := now, resolved_at := none }
  let action := (getAction actions1 id).getD inserted
  if req.tier = ActionTier.green then
    ({ decision := Decision.auto_approved,
       action := { action with status := ActionStatus.approved } },
     { st with actions := (approveAction actions1 now id).1 })
  else
    match rule with
    | some r =>
      if r.decision = TrustDecision.auto_approve then
        ({ decision := Decision.auto_approved,
           action := { action with status := ActionStatus.approved } },
         { st with actions := (approveAction actions1 now id).1 })
      else if r.decision = TrustDecision.auto_deny then
        ({ decision := Decision.auto_denied,
           action := { action with status := ActionStatus.denied } },
         { st with actions := (denyAction actions1 now id).1 })
      else
        let note : ActionNotification :=
          { action_id := id, type := req.type, tier := req.tier,
            title := req.title, description := req.description }
        ({ decision := Decision.pending, action := action },
         { st with actions := actions1, broadcasts := st.broadcasts ++ [note] })
    | none =>
      let note : ActionNotification :=
        { action_id := id, type := req.type, tier := req.tier,
          title := req.title, description := req.description }
      ({ decision := Decision.pending, action := action },
       { st with actions := actions1, broadcasts := st.broadcasts ++ [note] })

/-- `handleApprove`: approve a pending action; `null` when no pending
row was transitioned. -/
def handleApprove (st : ActionStore) (now : Nat) (id : String) :
    Option Action × ActionStore :=
  let (st1, success) := approveAction st now id
  if success then (getAction st1 id, st1) else (none, st1)

/-- `handleDeny`: deny a pending action; `null` when no pending row was
transitioned. -/
def handleDeny (st : ActionStore) (now : Nat) (id : String) :
    Option Action × ActionStore :=
  let (st1, success) := denyAction st now id
  if success then (getAction st1 id, st1) else (none, st1)

/-- `expireStaleActions`: the periodic sweep, calling
`expireOldActions(ACTION_TIMEOUT_MS)`. -/
def expireStaleActions (st : ActionStore) (now : Nat) : ActionStore × Nat :=
  expireOldActions st now ACTION_TIMEOUT_MS

/-! ## Capability router (source: `model-router.service.ts`)

A fallback slot is a `(provider, model)` pair; what the router observes
of a slot is the outcome of `provider.isAvailable()` (which may return
a boolean or throw) and the outcome of the delegated call (which may
return a value or throw). Both are embedded as `Except Unit`. -/

/-- One slot of a capability chain, as the router observes it. -/
structure Slot (α : Type) where
  probe : Except Unit Bool
  call : Except Unit α

/-- Trace events of a routing attempt: which slots were probed and
which were actually called. -/
inductive RouteEvent where
  | probe (i : Nat)
  | call (i : Nat)
deriving DecidableEq, Repr

/-- Chain index an event refers to. -/
def RouteEvent.index : RouteEvent → Nat
  | RouteEvent.probe i => i
  | RouteEvent.call i => i

/-- The fallback iteration shared by `routeChat` and `routeChatStream`:
probe each slot; on `isAvailable()` true, delegate; any thrown error is
suppressed and the next slot is tried. -/
def routeGo {α : Type} (capability : String) :
    List (Slot α) → Nat → Except String α × List RouteEvent
  | [], _ => (Except.error ("All providers failed for capability: " ++ capability), [])
  | s :: rest, i =>
    match s.probe with
    | Except.error _ =>
      ((routeGo capability rest (i + 1)).1,
       RouteEvent.probe i :: (routeGo capability rest (i + 1)).2)
    | Except.ok false =>
      ((routeGo capability rest (i + 1)).1,
       RouteEvent.probe i :: (routeGo capability rest (i + 1)).2)
    | Except.ok true =>
      match s.call with
      | Except.ok a => (Except.ok a, [RouteEvent.probe i, RouteEvent.call i])
      | Except.error _ =>
        ((routeGo capability rest (i + 1)).1,
         RouteEvent.probe i :: RouteEvent.call i :: (routeGo capability rest (i + 1)).2)

/-- The chain-walking core of both router entry points: an empty chain
is a configuration error reported before any probe. -/
def routeModel {α : Type} (capability : String) (chain : List (Slot α)) :
    Except String α × List RouteEvent :=
  if chain.isEmpty then
    (Except.error ("No provider assigned for capability: " ++ capability), [])
  else routeGo capability chain 0

/-- A slot fails: its availability probe throws, the probe reports
unavailable, or the delegated call throws. -/
def SlotFails {α : Type} (s : Slot α) : Prop :=
  s.probe = Except.error () ∨ s.probe = Except.ok false ∨ s.call = Except.error ()

/-- A tool call as produced by a model response:
`{ id, function: { name, arguments } }` with `arguments` a JSON string. -/
structure ToolCall where
  id : String
  name : String
  arguments : String
deriving DecidableEq, Repr

/-- `ChatResponse`: `{ content, model, tokens_used?, tool_calls? }`
(an absent `tool_calls` and an empty array are used interchangeably by
the orchestrator, which only tests `tool_calls?.length`). -/
structure ChatResponse where
  content : String
  model : String
  tokens_used : Option Nat
  tool_calls : List ToolCall
deriving DecidableEq, Repr

/-- `routeChat`: blocking chat routed through the fallback chain. -/
def routeChat (capability : String) (chain : List (Slot ChatResponse)) :
    Except String ChatResponse × List RouteEvent :=
  routeModel capability chain

/-- `routeChatStream`: streaming chat routed through the same fallback
chain; a slot's delegated call yields a sequence of text increments and
a final `ChatResponse`. -/
def routeChatStream (capability : String)
    (chain : List (Slot (List String × ChatResponse))) :
    Except String (List String × ChatResponse) × List RouteEvent :=
  routeModel capability chain

/-! ## Conversation and message repositories
(sources: `conversation.repository` in `src/unnamed/part_003`,
`message.repository.ts`) -/

/-- A row of the `conversations` table. -/
structure Conversation where
  id : String
  title : Option String
  created_at : Nat
  updated_at : Nat
deriving DecidableEq, Repr

/-- The `conversations` table. -/
structure ConversationStore where
  rows : List Conversation
deriving DecidableEq, Repr

/-- `createConversation`: INSERT with both timestamps defaulting to now. -/
def createConversation (st : ConversationStore) (now : Nat) (id : String)
    (title : Option String) : ConversationStore :=
  { rows := st.rows ++ [{ id := id, title := title, created_at := now, updated_at := now }] }

/-- `getConversation`: first row with the given id. -/
def getConversation (st : ConversationStore) (id : String) : Option Conversation :=
  st.rows.find? (fun c => c.id == id)

/-- `updateConversationTimestamp`. -/
def updateConversationTimestamp (st : ConversationStore) (now : Nat)
    (id : String) : ConversationStore :=
  { rows := st.rows.map (fun c => if c.id == id then { c with updated_at := now } else c) }

/-- `updateConversationTitle`. -/
def updateConversationTitle (st : ConversationStore) (now : Nat)
    (id : String) (title : String) : ConversationStore :=
  { rows := st.rows.map (fun c =>
      if c.id == id then { c with title := some title, updated_at := now } else c) }

/-- Message roles. The `messages` table stores `user|assistant|system`;
the in-memory turn state additionally uses `tool`. -/
inductive Role where
  | system | user | assistant | tool
deriving DecidableEq, Repr

/-- A row of the `messages` table. -/
structure MessageRow where
  id : String
  conversation_id : String
  role : Role
  content : String
  model : Option String
  tokens_used : Option Nat
  created_at : Nat
deriving DecidableEq, Repr

/-- The `messages` table. -/
structure MessageStore where
  rows : List MessageRow
deriving DecidableEq, Repr

/-- `createMessage`: INSERT with `created_at` defaulting to now. -/
def createMessage (st : MessageStore) (row : MessageRow) : MessageStore :=
  { rows := st.rows ++ [row] }

/-- `listMessages(conversationId, limit)`: rows of the conversation in
`created_at` order (rows are appended chronologically), first `limit`. -/
def listMessages (st : MessageStore) (conversationId : String) (limit : Nat) :
    List MessageRow :=
  ((st.rows.filter (fun m => m.conversation_id == conversationId)).take limit)

/-! ## Chat orchestrator (source: `chat.service.ts`) -/

/-- In-memory `ChatMessage` built for one turn. -/
structure ChatMessage where
  role : Role
  content : String
  tool_calls : List ToolCall := []
  tool_call_id : Option String := none
  images : List String := []
deriving DecidableEq, Repr

/-- `MAX_TOOL_ROUNDS = 10`. -/
def MAX_TOOL_ROUNDS : Nat := 10

/-- The result shape of `executeTool` / `executeSkillAction`:
`{ success, result?, error? }`. -/
structure ToolOutcome where
  success : Bool
  result : Option String
  error : Option String
deriving DecidableEq, Repr

/-- `sendMessage`'s and `streamMessage`'s identical conversation
prelude: use the supplied id, creating the row when it does not exist,
or mint a fresh id and create its row. -/
def ensureConversation (conversationId : Option String) (fresh : String)
    (now : Nat) (convs : ConversationStore) : String × ConversationStore :=
  match conversationId with
  | none => (fresh, createConversation convs now fresh none)
  | some cid =>
    if (getConversation convs cid).isSome then (cid, convs)
    else (cid, createConversation convs now cid none)

/-- Parsed JSON tool arguments (`Record<string, unknown>` flattened to
key/value pairs; the orchestrator never inspects the values). -/
abbrev Args : Type := List (String × String)

/-- Operations `executeTool`'s approval wait may issue against the
action store and the clock. `sleep` and `get` leave the store alone;
the mutating operations are listed so that "the wait never mutates"
is a statement with content. -/
inductive DbOp where
  | sleep (ms : Nat)
  | get (id : String)
  | approve (now : Nat) (id : String)
  | deny (now : Nat) (id : String)
  | expire (now : Nat) (maxAgeMs : Nat)
deriving DecidableEq, Repr

/-- Effect of one operation on the action store. -/
def applyDbOp (st : ActionStore) : DbOp → ActionStore
  | DbOp.sleep _ => st
  | DbOp.get _ => st
  | DbOp.approve now id => (approveAction st now id).1
  | DbOp.deny now id => (denyAction st now id).1
  | DbOp.expire now maxAgeMs => (expireOldActions st now maxAgeMs).1

/-- Effect of a sequence of operations on the action store. -/
def applyDbOps (ops : List DbOp) (st : ActionStore) : ActionStore :=
  ops.foldl applyDbOp st

/-- `executeTool`'s approval wait: `deadline = Date.now() + 120_000`. -/
def WAIT_BUDGET_MS : Nat := 120000

/-- `executeTool`'s approval wait: `setTimeout(r, 1000)` per iteration. -/
def WAIT_POLL_MS : Nat := 1000

/-- Number of poll iterations the wait performs: the loop sleeps
`WAIT_POLL_MS` then polls, while the elapsed time is below the budget. -/
def MAX_POLLS : Nat := WAIT_BUDGET_MS / WAIT_POLL_MS

/-- The poll loop of `executeTool` for a `pending` action.
`observe k` is the row `getAction(actionId)` returns at the k-th poll
(the store is mutated concurrently by approvals, denials, and the
sweep); `skillOutcome` is what `executeSkillAction` returns if the
action is approved. Returns the tool result together with the trace of
store/clock operations the wait performed. -/
def pollLoop (observe : Nat → Option Action) (skillOutcome : ToolOutcome)
    (actionId : String) : Nat → Nat → ToolOutcome × List DbOp
  | _, 0 => ({ success := false, result := none,
               error := some "Action approval timed out" }, [])
  | k, fuel + 1 =>
    let step := [DbOp.sleep WAIT_POLL_MS, DbOp.get actionId]
    match observe k with
    | none => ({ success := false, result := none,
                 error := some "Action not found" }, step)
    | some a =>
      if a.status = ActionStatus.approved then (skillOutcome, step)
      else if a.status = ActionStatus.denied then
        ({ success := false, result := none,
           error := some "Action denied by user" }, step)
      else
        ((pollLoop observe skillOutcome actionId (k + 1) fuel).1,
         step ++ (pollLoop observe skillOutcome actionId (k + 1) fuel).2)

/-- `executeTool`: parse the arguments and the `<skill>__<action>` name,
resolve the tier, then run green-tier calls directly and gate
yellow/red calls through `submitAction`, waiting on a `pending`
decision with `pollLoop`.

The collaborators that live outside the embedded sources are
parameters: `parseJson` (`JSON.parse`), `stringify` (`JSON.stringify`),
and — modelled from the spec, since `skills.service.ts` is not among
the sources: `parseToolName` (splits a `<skill>__<action>` tool name),
`getActionTier` (the tool's configured sensitivity tier), `execSkill`
(`executeSkillAction`). -/
def executeTool
    (parseJson : String → Option Args)
    (stringify : Args → String)
    (parseToolName : String → Option (String × String))
    (getActionTier : String → Option ActionTier)
    (execSkill : String → String → Args → ToolOutcome)
    (gate : GateState) (now : Nat) (freshActionId : String)
    (observe : Nat → Option Action)
    (tc : ToolCall) (conversationId : String) :
    ToolOutcome × GateState × List DbOp :=
  let apiName := tc.name
  match parseJson tc.arguments with
  | none => ({ success := false, result := none,
               error := some "Invalid tool arguments JSON" }, gate, [])
  | some args =>
    match parseToolName apiName with
    | none => ({ success := false, result := none,
                 error := some ("Invalid tool name format: " ++ apiName) }, gate, [])
    | some (skillId, actionName) =>
      match getActionTier apiName with
      | none => ({ success := false, result := none,
                   error := some ("Unknown tool: " ++ apiName) }, gate, [])
      | some tier =>
        if tier = ActionTier.green then
          (execSkill skillId actionName args, gate, [])
        else
          let internalName := skillId ++ "." ++ actionName
          let req : SubmitActionRequest :=
            { type := internalName, tier := tier,
              title := "AI wants to run: " ++ internalName,
              description := some ("Arguments: " ++ stringify args),
              payload := some (stringify args),
              conversationId := some conversationId }
          let actionResult := (submitAction gate now freshActionId req).1
          let gate1 := (submitAction gate now freshActionId req).2
          match actionResult.decision with
          | Decision.auto_approved => (execSkill skillId actionName args, gate1, [])
          | Decision.auto_denied =>
            ({ success := false, result := none,
               error := some "Action denied by trust rules" }, gate1, [])
          | Decision.pending =>
            ((pollLoop observe (execSkill skillId actionName args)
                actionResult.action.id 0 MAX_POLLS).1, gate1,
             (pollLoop observe (execSkill skillId actionName args)
                actionResult.action.id 0 MAX_POLLS).2)

/-- `BASE_SYSTEM_PROMPT` prepended to every turn's message list. -/
def BASE_SYSTEM_PROMPT : String :=
  "You are FutureBox, a personal AI assistant running on your owner's local machine (Windows PC). You have direct access to the host system through tools.\n\nCRITICAL RULES:\n- When the user asks you to DO something (open a URL, check clipboard, set volume, take a screenshot, run a command, etc.), ALWAYS call the appropriate tool. NEVER just describe what you would do.\n- Act first, explain after. Call the tool, then briefly confirm what happened.\n- You can chain multiple tool calls in a single response when needed.\n- If a tool call fails, tell the user what went wrong and suggest alternatives.\n- For simple questions that don't need tools, just answer normally.\n- Be concise. No filler."

/-- A `StreamChunk` yielded by `streamMessage`. -/
inductive StreamChunk where
  | token (data : String)
  | tool_start (tool_call_id : String) (tool_name : String) (arguments : Args)
  | tool_result (tool_call_id : String) (tool_name : String) (success : Bool)
      (result : Option String) (error : Option String)
  | done (conversation_id : String) (message_id : String) (content : String)
      (model : Option String)
deriving DecidableEq, Repr

/-- Whether a chunk is the terminal `done` event. -/
def StreamChunk.isDone : StreamChunk → Bool
  | StreamChunk.done _ _ _ _ => true
  | _ => false

/-- The per-round tool execution shared by both loops: for each tool
call in the order the model returned them, emit `tool_start`, execute
(`execTool i tc` is the outcome of the i-th tool execution of the turn,
an abstraction of `executeTool`), emit `tool_result`, and build the
tool-role message carrying the serialized result. -/
def runToolCalls (parseJson : String → Option Args)
    (stringifyOutcome : ToolOutcome → String)
    (execTool : Nat → ToolCall → ToolOutcome) :
    Nat → List ToolCall → List StreamChunk × List ChatMessage × Nat
  | ti, [] => ([], [], ti)
  | ti, tc :: rest =>
    let args := (parseJson tc.arguments).getD []
    let r := execTool ti tc
    (StreamChunk.tool_start tc.id tc.name args ::
       StreamChunk.tool_result tc.id tc.name r.success r.result r.error ::
       (runToolCalls parseJson stringifyOutcome execTool (ti + 1) rest).1,
     ({ role := Role.tool, content := stringifyOutcome r,
        tool_call_id := some tc.id } : ChatMessage) ::
       (runToolCalls parseJson stringifyOutcome execTool (ti + 1) rest).2.1,
     (runToolCalls parseJson stringifyOutcome execTool (ti + 1) rest).2.2)

/-- Result of the bounded round loop of `sendMessage`. -/
structure SyncLoopOut where
  messages : List ChatMessage
  allContent : String
  model : Option String
  hadToolCalls : Bool
  responses : List ChatResponse
  calls : Nat
  tools : Nat
deriving Repr

/-- The bounded round loop of `sendMessage`: up to `fuel` rounds; each
round calls the backend (`backend i msgs toolsOffered` is the response
of the i-th backend call of the turn), appends its content, stops when
the response carries no tool calls, and otherwise executes the tools
and loops. `hadToolCalls` is set when a round produces tool calls and
— as in the source — never reset by a later round. -/
def sendLoop (backend : Nat → List ChatMessage → Bool → ChatResponse)
    (parseJson : String → Option Args) (stringifyOutcome : ToolOutcome → String)
    (execTool : Nat → ToolCall → ToolOutcome) (toolsOffered : Bool) :
    Nat → Nat → Nat → List ChatMessage → String → Option String → Bool → SyncLoopOut
  | 0, ci, ti, msgs, acc, model, had =>
    { messages := msgs, allContent := acc, model := model, hadToolCalls := had,
      responses := [], calls := ci, tools := ti }
  | fuel + 1, ci, ti, msgs, acc, _model, had =>
    let r := backend ci msgs toolsOffered
    let acc2 := acc ++ r.content
    if r.tool_calls.isEmpty then
      { messages := msgs, allContent := acc2, model := some r.model,
        hadToolCalls := had, responses := [r], calls := ci + 1, tools := ti }
    else
      let assistantMsg : ChatMessage :=
        { role := Role.assistant, content := r.content, tool_calls := r.tool_calls }
      let msgs2 := msgs ++ [assistantMsg]
      let toolMsgs := (runToolCalls parseJson stringifyOutcome execTool ti r.tool_calls).2.1
      let ti2 := (runToolCalls parseJson stringifyOutcome execTool ti r.tool_calls).2.2
      let out := sendLoop backend parseJson stringifyOutcome execTool toolsOffered
        fuel (ci + 1) ti2 (msgs2 ++ toolMsgs) acc2 (some r.model) true
      { out with responses := r :: out.responses }

/-- `SendMessageResult`. -/
structure SendMessageResult where
  conversation_id : String
  message_id : String
  content : String
  model : Option String
deriving DecidableEq, Repr

/-- Everything observable about one `sendMessage` turn: its result, the
stores it leaves behind, the loop's responses, and whether the
post-loop tool-free backend call was performed. -/
structure SendOutcome where
  result : SendMessageResult
  convs : ConversationStore
  msgs : MessageStore
  loopResponses : List ChatResponse
  extraCall : Bool
  backendCalls : Nat
deriving Repr

/-- `sendMessage`: non-streaming turn. Creates/reuses the conversation,
persists the user message, runs the bounded tool loop, performs the
post-loop tool-free call when `hadToolCalls` is set, persists the final
assistant message, and updates the conversation row. -/
def sendMessage (backend : Nat → List ChatMessage → Bool → ChatResponse)
    (parseJson : String → Option Args) (stringifyOutcome : ToolOutcome → String)
    (execTool : Nat → ToolCall → ToolOutcome) (toolsAvailable : Bool)
    (convs : ConversationStore) (msgs : MessageStore) (now : Nat)
    (freshConvId userMsgId assistantMsgId : String)
    (conversationId : Option String) (userContent : String) : SendOutcome :=
  let convId := (ensureConversation conversationId freshConvId now convs).1
  let convs1 := (ensureConversation conversationId freshConvId now convs).2
  let userRow : MessageRow :=
    { id := userMsgId, conversation_id := convId, role := Role.user,
      content := userContent, model := none, tokens_used := none, created_at := now }
  let msgs1 := createMessage msgs userRow
  let history := listMessages msgs1 convId 50
  let systemMsg : ChatMessage := { role := Role.system, content := BASE_SYSTEM_PROMPT }
  let chatMsgs : List ChatMessage :=
    systemMsg ::
      history.map (fun m => ({ role := m.role, content := m.content } : ChatMessage))
  let out := sendLoop backend parseJson stringifyOutcome execTool toolsAvailable
    MAX_TOOL_ROUNDS 0 0 chatMsgs "" none false
  let post :=
    if out.hadToolCalls then
      let fr := backend out.calls out.messages false
      (out.allContent ++ fr.content, some fr.model, true, out.calls + 1)
    else
      (out.allContent, out.model, false, out.calls)
  let finalContent := post.1
  let assistantRow : MessageRow :=
    { id := assistantMsgId, conversation_id := convId, role := Role.assistant,
      content := finalContent, model := post.2.1, tokens_used := none,
      created_at := now }
  let msgs2 := createMessage msgs1 assistantRow
  let convs2 := updateConversationTimestamp convs1 now convId
  let convs3 :=
    if history.length ≤ 1 then
      updateConversationTitle convs2 now convId (userContent.take 80)
    else convs2
  let res : SendMessageResult :=
    { conversation_id := convId, message_id := assistantMsgId,
      content := finalContent, model := post.2.1 }
  { result := res, convs := convs3, msgs := msgs2, loopResponses := out.responses,
    extraCall := post.2.2.1, backendCalls := post.2.2.2 }

/-- Result of the bounded round loop of `streamMessage`. -/
structure StreamLoopOut where
  chunks : List StreamChunk
  messages : List ChatMessage
  allContent : String
  model : Option String
  tokens_used : Option Nat
  hadToolCalls : Bool
  calls : Nat
  tools : Nat
deriving Repr

/-- The bounded round loop of `streamMessage`: each round streams a
completion (`sbackend i msgs toolsOffered` is the pair of yielded text
increments and final response of the i-th backend call), forwards each
increment as a `token` chunk, and — unlike `sendLoop` — resets
`hadToolCalls` at the start of every round, so on exit it reflects the
last executed round only. -/
def streamLoop (sbackend : Nat → List ChatMessage → Bool → List String × ChatResponse)
    (parseJson : String → Option Args) (stringifyOutcome : ToolOutcome → String)
    (execTool : Nat → ToolCall → ToolOutcome) (toolsOffered : Bool) :
    Nat → Nat → Nat → List ChatMessage → String → Option String → Option Nat →
      Bool → StreamLoopOut
  | 0, ci, ti, msgs, acc, model, tu, had =>
    { chunks := [], messages := msgs, allContent := acc, model := model,
      tokens_used := tu, hadToolCalls := had, calls := ci, tools := ti }
  | fuel + 1, ci, ti, msgs, acc, _model, _tu, _had =>
    let str := sbackend ci msgs toolsOffered
    let toks := str.1
    let final := str.2
    let roundContent := String.join toks
    let acc2 := acc ++ roundContent
    let tokenChunks := toks.map StreamChunk.token
    if final.tool_calls.isEmpty then
      { chunks := tokenChunks, messages := msgs, allContent := acc2,
        model := some final.model, tokens_used := final.tokens_used,
        hadToolCalls := false, calls := ci + 1, tools := ti }
    else
      let assistantMsg : ChatMessage :=
        { role := Role.assistant, content := roundContent,
          tool_calls := final.tool_calls }
      let msgs2 := msgs ++ [assistantMsg]
      let toolChunks :=
        (runToolCalls parseJson stringifyOutcome execTool ti final.tool_calls).1
      let toolMsgs :=
        (runToolCalls parseJson stringifyOutcome execTool ti final.tool_calls).2.1
      let ti2 :=
        (runToolCalls parseJson stringifyOutcome execTool ti final.tool_calls).2.2
      let out := streamLoop sbackend parseJson stringifyOutcome execTool toolsOffered
        fuel (ci + 1) ti2 (msgs2 ++ toolMsgs) acc2 (some final.model)
        final.tokens_used true
      { out with chunks := tokenChunks ++ toolChunks ++ out.chunks }

/-- Everything observable about one `streamMessage` turn. -/
structure StreamOutcome where
  chunks : List StreamChunk
  result : SendMessageResult
  convs : ConversationStore
  msgs : MessageStore
  loopCalls : Nat
  extraCall : Bool
  lastRoundHadToolCalls : Bool
  backendCalls : Nat
deriving Repr

/-- `streamMessage`: streaming turn. Same prelude as `sendMessage`
(plus images attached to the last history message when it is the user's),
the bounded round loop, the post-loop tool-free stream when the loop
exhausted its rounds on tool calls, persistence of the final assistant
message, and the terminal `done` chunk. -/
def streamMessage (sbackend : Nat → List ChatMessage → Bool → List String × ChatResponse)
    (parseJson : String → Option Args) (stringifyOutcome : ToolOutcome → String)
    (execTool : Nat → ToolCall → ToolOutcome) (toolsAvailable : Bool)
    (convs : ConversationStore) (msgs : MessageStore) (now : Nat)
    (freshConvId userMsgId assistantMsgId : String)
    (conversationId : Option String) (userContent : String)
    (images : List String) : StreamOutcome :=
  let convId := (ensureConversation conversationId freshConvId now convs).1
  let convs1 := (ensureConversation conversationId freshConvId now convs).2
  let userRow : MessageRow :=
    { id := userMsgId, conversation_id := convId, role := Role.user,
      content := userContent, model := none, tokens_used := none, created_at := now }
  let msgs1 := createMessage msgs userRow
  let history := listMessages msgs1 convId 50
  let systemMsg : ChatMessage := { role := Role.system, content := BASE_SYSTEM_PROMPT }
  let chatMsgs : List ChatMessage :=
    systemMsg ::
      history.enum.map (fun p =>
        let m := p.2
        let base : ChatMessage := { role := m.role, content := m.content }
        if p.1 + 1 = history.length && m.role == Role.user && !images.isEmpty then
          { base with images := images }
        else base)
  let out := streamLoop sbackend parseJson stringifyOutcome execTool toolsAvailable
    MAX_TOOL_ROUNDS 0 0 chatMsgs "" none none false
  let post :=
    if out.hadToolCalls then
      let str := sbackend out.calls out.messages false
      (str.1.map StreamChunk.token, out.allContent ++ String.join str.1,
       some str.2.model, true, out.calls + 1)
    else
      (([] : List StreamChunk), out.allContent, out.model, false, out.calls)
  let finalContent := post.2.1
  let assistantRow : MessageRow :=
    { id := assistantMsgId, conversation_id := convId, role := Role.assistant,
      content := finalContent, model := post.2.2.1, tokens_used := out.tokens_used,
      created_at := now }
  let msgs2 := createMessage msgs1 assistantRow
  let convs2 := updateConversationTimestamp convs1 now convId
  let convs3 :=
    if history.length ≤ 1 then
      updateConversationTitle convs2 now convId (userContent.take 80)
    else convs2
  let res : SendMessageResult :=
    { conversation_id := convId, message_id := assistantMsgId,
      content := finalContent, model := post.2.2.1 }
  { chunks := out.chunks ++ post.1 ++
      [StreamChunk.done convId assistantMsgId finalContent post.2.2.1],
    result := res, convs := convs3, msgs := msgs2, loopCalls := out.calls,
    extraCall := post.2.2.2.1, lastRoundHadToolCalls := out.hadToolCalls,
    backendCalls := post.2.2.2.2 }

/-! ## Chat WebSocket handler (source: `chat.handler.ts`)

`handleChatSend` consumes the generator chunk by chunk; at each
iteration it first checks the cancellation flag set by
`handleChatCancel` and breaks without forwarding when it is set.
Breaking out of the `for await` also stops the generator, so chunks
after the break — and the generator side effects attached to producing
them — never happen. -/

/-- What `wsManager.send` receives from the chat handler: the handler
forwards `token` chunks as `chat.token` and the `done` chunk as
`chat.done` (tool chunks are not forwarded by this handler). -/
inductive WsSend where
  | chatToken (correlation : String) (conversation_id : String) (token : String)
  | chatDone (correlation : String) (conversation_id : String)
      (message_id : String) (content : String) (model : Option String)
deriving DecidableEq, Repr

/-- Envelopes the handler sends for one chunk. -/
def forwardChunk (correlation : String) (payloadConvId : String) :
    StreamChunk → List WsSend
  | StreamChunk.token d => [WsSend.chatToken correlation payloadConvId d]
  | StreamChunk.done cid mid content model =>
      [WsSend.chatDone correlation cid mid content model]
  | _ => []

/-- The `for await` consumption loop of `handleChatSend`: pull the
chunk at position `i`, then break when `aborted i` (the cancellation
flag as observed at that iteration), else forward. Returns the sent
envelopes and the number of chunks actually pulled from the generator. -/
def consumeStream (aborted : Nat → Bool) (correlation payloadConvId : String) :
    List StreamChunk → Nat → List WsSend × Nat
  | [], _ => ([], 0)
  | c :: rest, i =>
    if aborted i then ([], 1)
    else
      (forwardChunk correlation payloadConvId c ++
        (consumeStream aborted correlation payloadConvId rest (i + 1)).1,
       (consumeStream aborted correlation payloadConvId rest (i + 1)).2 + 1)

/-- `handleChatSend`, given the chunk sequence of a `streamMessage` run
and the observed cancellation flag. -/
def handleChatSend (aborted : Nat → Bool) (correlation payloadConvId : String)
    (chunks : List StreamChunk) : List WsSend × Nat :=
  consumeStream aborted correlation payloadConvId chunks 0

/-- Whether the final assistant message of a lazily-consumed
`streamMessage` run has been persisted: in the source, `createMessage`
for the assistant row immediately precedes yielding `done`, so the
persist has happened exactly when the `done` chunk has been pulled. -/
def finalMessagePersisted (chunks : List StreamChunk) (pulls : Nat) : Bool :=
  (chunks.take pulls).any StreamChunk.isDone

/-! ## Concrete fixtures used by witnesses -/

/-- An already-resolved action row. -/
def resolvedRow : Action :=
  { id := "a1", conversation_id := none, type := "shell.exec", tier := ActionTier.red,
    title := "t", description := none, payload := none,
    status := ActionStatus.approved, created_at := 0, resolved_at := some 3 }

/-- A store whose only row is already resolved. -/
def resolvedStore : ActionStore := ⟨[resolvedRow]⟩

/-- A pending action created at time 0. -/
def pendingOldRow : Action :=
  { id := "p1", conversation_id := none, type := "shell.exec", tier := ActionTier.red,
    title := "t1", description := none, payload := none,
    status := ActionStatus.pending, created_at := 0, resolved_at := none }

/-- A pending action created at time 100. -/
def pendingNewRow : Action :=
  { id := "p2", conversation_id := none, type := "shell.exec", tier := ActionTier.red,
    title := "t2", description := none, payload := none,
    status := ActionStatus.pending, created_at := 100, resolved_at := none }

/-- A store mixing stale pending, fresh pending, and resolved rows. -/
def sweepStore : ActionStore := ⟨[pendingOldRow, pendingNewRow, resolvedRow]⟩

/-- A streaming backend yielding two tokens then finishing without
tool calls. -/
def demoStream : Nat → List ChatMessage → Bool → List String × ChatResponse :=
  fun _ _ _ => (["a", "b"], ⟨"ab", "m", none, []⟩)

/-- The chunk sequence of a one-round `streamMessage` turn against
`demoStream`: two tokens and the terminal `done`. -/
def demoChunks : List StreamChunk :=
  (streamMessage demoStream (fun _ => some []) (fun _ => "r")
    (fun _ _ => ⟨true, none, none⟩) false ⟨[]⟩ ⟨[]⟩ 0 "c1" "u1" "a1" none "hi" []).chunks

/-- A backend that requests one tool call in its first round and
answers with plain text (no tool calls) in every later round. -/
def c1Backend : Nat → List ChatMessage → Bool → ChatResponse :=
  fun i _ _ =>
    if i = 0 then ⟨"x", "m", none, [⟨"t1", "clipboard__read", ""⟩]⟩
    else ⟨"y", "m", none, []⟩

/-- The streaming counterpart of `c1Backend`. -/
def c1StreamBackend : Nat → List ChatMessage → Bool → List String × ChatResponse :=
  fun i _ _ =>
    if i = 0 then (["x"], ⟨"x", "m", none, [⟨"t1", "clipboard__read", ""⟩]⟩)
    else (["y"], ⟨"y", "m", none, []⟩)

/-- One `sendMessage` turn against `c1Backend`. -/
def c1SyncOut : SendOutcome :=
  sendMessage c1Backend (fun _ => some []) (fun _ => "r")
    (fun _ _ => ⟨true, some "ok", none⟩) true ⟨[]⟩ ⟨[]⟩ 0 "c1" "u1" "a1" none "hi"

/-- One `streamMessage` turn against `c1StreamBackend`. -/
def c1StreamOut : StreamOutcome :=
  streamMessage c1StreamBackend (fun _ => some []) (fun _ => "r")
    (fun _ _ => ⟨true, some "ok", none⟩) true ⟨[]⟩ ⟨[]⟩ 0 "c1" "u1" "a1" none "hi" []

/-! ## Helper lemmas -/

theorem find?_map_none_of_fix {α : Type} (l : List α) (p : α → Bool) (f : α → α)
    (hf : ∀ a : α, p a = false → f a = a) (h : l.find? p = none) :
    (l.map f).find? p = none := by
  rw [List.find?_eq_none] at h ⊢
  intro b hb
  obtain ⟨a, ha, rfl⟩ := List.mem_map.mp hb
  have hpa : p a = false := by
    have := h a ha
    simpa using this
  rw [hf a hpa]
  simp [hpa]

theorem find?_map_pred {α : Type} (l : List α) (p : α → Bool) (f : α → α)
    (hf : ∀ x, p (f x) = p x) : (l.map f).find? p = (l.find? p).map f := by
  induction l with
  | nil => rfl
  | cons a t ih =>
    simp only [List.map_cons, List.find?]
    rw [hf a]
    cases hp : p a with
    | true => rfl
    | false => exact ih

theorem find?_isSome_map {α : Type} (l : List α) (p : α → Bool) (f : α → α)
    (hf : ∀ x, p (f x) = p x) :
    ((l.map f).find? p).isSome = (l.find? p).isSome := by
  induction l with
  | nil => rfl
  | cons a t ih =>
    simp only [List.map_cons, List.find?]
    rw [hf a]
    cases hp : p a with
    | true => rfl
    | false => simpa using ih

/-- After `createAction` then `approveAction` on an id with no prior
row, `getAction` returns the freshly approved row. -/
theorem getAction_create_approve (st : ActionStore) (now now2 : Nat) (id : String)
    (cid : Option String) (ty : String) (tier : ActionTier) (title : String)
    (desc payload : Option String) (h : getAction st id = none) :
    getAction (approveAction
        (createAction st now id cid ty tier title desc payload) now2 id).1 id
      = some { id := id, conversation_id := cid, type := ty, tier := tier,
               title := title, description := desc, payload := payload,
               status := ActionStatus.approved, created_at := now,
               resolved_at := some now2 } := by
  unfold getAction at h ⊢
  unfold approveAction createAction
  simp only [List.map_append, List.find?_append]
  rw [find?_map_none_of_fix _ _ _ ?fix h]
  case fix =>
    intro a ha
    simp [ha]
  simp [List.find?]

/-! ## C4 / C9: green-tier submissions -/

/-- C4: a `green`-tier `submitAction` returns `auto_approved`
synchronously, the created Action row is already `approved` when it
returns, and no `notification.action` broadcast is sent. -/
theorem submitAction_green_auto_approved_no_broadcast (st : GateState) (now : Nat)
    (id : String) (req : SubmitActionRequest)
    (hfresh : getAction st.actions id = none)
    (htier : req.tier = ActionTier.green) :
    (submitAction st now id req).1.decision = Decision.auto_approved ∧
    (submitAction st now id req).1.action.status = ActionStatus.approved ∧
    (∃ a, getAction (submitAction st now id req).2.actions id = some a ∧
      a.status = ActionStatus.approved ∧ a.resolved_at = some now) ∧
    (submitAction st now id req).2.broadcasts = st.broadcasts := by
  refine ⟨?_, ?_, ?_, ?_⟩
  · simp [submitAction, htier]
  · simp [submitAction, htier]
  · have h3 : getAction (submitAction st now id req).2.actions id
        = some { id := id, conversation_id := req.conversationId, type := req.type,
                 tier := ActionTier.green, title := req.title,
                 description := req.description, payload := req.payload,
                 status := ActionStatus.approved, created_at := now,
                 resolved_at := some now } := by
      simpa [submitAction, htier] using
        getAction_create_approve st.actions now now id req.conversationId
          req.type ActionTier.green req.title req.description req.payload hfresh
    exact ⟨_, h3, rfl, rfl⟩
  · simp [submitAction, htier]

/-- C4 witness. -/
theorem submitAction_green_auto_approved_no_broadcast_witness :
    (submitAction ⟨⟨[]⟩, [], []⟩ 0 "a1"
      { type := "browser.open", tier := ActionTier.green, title := "t",
        description := none, payload := none, conversationId := none }).1.decision
      = Decision.auto_approved :=
  (submitAction_green_auto_approved_no_broadcast ⟨⟨[]⟩, [], []⟩ 0 "a1"
    { type := "browser.open", tier := ActionTier.green, title := "t",
      description := none, payload := none, conversationId := none }
    rfl rfl).1

/-- C9: the green-tier check precedes the trust-rule check, so even an
exact-match `auto_deny` rule for the action's key cannot deny a
green-tier action: the decision is still `auto_approved` and the stored
row ends up `approved`. -/
theorem green_tier_overrides_auto_deny_rule (st : GateState) (now : Nat)
    (id : String) (req : SubmitActionRequest) (r : TrustRule)
    (hr : findTrustRule st.rules (serviceOf req.type) req.type = some r)
    (hd : r.decision = TrustDecision.auto_deny)
    (hfresh : getAction st.actions id = none)
    (htier : req.tier = ActionTier.green) :
    (submitAction st now id req).1.decision = Decision.auto_approved ∧
    (∃ a, getAction (submitAction st now id req).2.actions id = some a ∧
      a.status = ActionStatus.approved) := by
  refine ⟨?_, ?_⟩
  · simp [submitAction, htier]
  · have h3 : getAction (submitAction st now id req).2.actions id
        = some { id := id, conversation_id := req.conversationId, type := req.type,
                 tier := ActionTier.green, title := req.title,
                 description := req.description, payload := req.payload,
                 status := ActionStatus.approved, created_at := now,
                 resolved_at := some now } := by
      simpa [submitAction, htier] using
        getAction_create_approve st.actions now now id req.conversationId
          req.type ActionTier.green req.title req.description req.payload hfresh
    exact ⟨_, h3, rfl⟩

/-- C9 witness: a green-tier action whose exact key carries an
`auto_deny` rule is still auto-approved. -/
theorem green_tier_overrides_auto_deny_rule_witness :
    (submitAction ⟨⟨[]⟩, [⟨"r1", "clipboard", "clipboard.read", TrustDecision.auto_deny⟩], []⟩
      0 "a2"
      { type := "clipboard.read", tier := ActionTier.green, title := "t",
        description := none, payload := none, conversationId := none }).1.decision
      = Decision.auto_approved :=
  (green_tier_overrides_auto_deny_rule
    ⟨⟨[]⟩, [⟨"r1", "clipboard", "clipboard.read", TrustDecision.auto_deny⟩], []⟩
    0 "a2"
    { type := "clipboard.read", tier := ActionTier.green, title := "t",
      description := none, payload := none, conversationId := none }
    ⟨"r1", "clipboard", "clipboard.read", TrustDecision.auto_deny⟩
    (by decide) rfl rfl rfl).1

/-! ## C3: resolution is one-way and idempotent -/

/-- C3: when every row carrying the id is no longer `pending` (which
includes the id-not-found case), `handleApprove` and `handleDeny`
return `null` and leave the whole store — statuses and resolution
timestamps included — untouched; and after an `approveAction` or
`denyAction`, every row carrying the id is no longer `pending`, so an
Action leaves `pending` at most once. -/
theorem action_resolution_idempotent (st : ActionStore) (now now2 : Nat) (id : String) :
    ((∀ a ∈ st.rows, a.id = id → a.status ≠ ActionStatus.pending) →
      handleApprove st now id = (none, st) ∧ handleDeny st now id = (none, st)) ∧
    (∀ a ∈ (approveAction st now2 id).1.rows, a.id = id → a.status ≠ ActionStatus.pending) ∧
    (∀ a ∈ (denyAction st now2 id).1.rows, a.id = id → a.status ≠ ActionStatus.pending) := by
  have hitFalse : ∀ (h : ∀ a ∈ st.rows, a.id = id → a.status ≠ ActionStatus.pending)
      (a : Action), a ∈ st.rows →
      (a.id == id && a.status == ActionStatus.pending) = false := by
    intro h a ha
    by_cases hid : a.id = id
    · have := h a ha hid
      simp [hid, this]
    · simp [hid]
  refine ⟨?_, ?_, ?_⟩
  · intro h
    have hany : (st.rows.any fun a => a.id == id && a.status == ActionStatus.pending) = false := by
      rw [List.any_eq_false]
      intro a ha
      simp [hitFalse h a ha]
    have happrove : approveAction st now id = (st, false) := by
      unfold approveAction
      refine Prod.ext ?_ (by simpa using hany)
      show ActionStore.mk _ = st
      have hmap := List.map_congr_left (l := st.rows)
        (f := fun a => if a.id == id && a.status == ActionStatus.pending then
          { a with status := ActionStatus.approved, resolved_at := some now }
          else a) (g := fun a => a)
        (fun a ha => by simp [hitFalse h a ha])
      rw [hmap]
      simp
    have hdeny : denyAction st now id = (st, false) := by
      unfold denyAction
      refine Prod.ext ?_ (by simpa using hany)
      show ActionStore.mk _ = st
      have hmap := List.map_congr_left (l := st.rows)
        (f := fun a => if a.id == id && a.status == ActionStatus.pending then
          { a with status := ActionStatus.denied, resolved_at := some now }
          else a) (g := fun a => a)
        (fun a ha => by simp [hitFalse h a ha])
      rw [hmap]
      simp
    constructor
    · simp [handleApprove, happrove]
    · simp [handleDeny, hdeny]
  · intro a ha hid
    simp only [approveAction, List.mem_map] at ha
    obtain ⟨b, hbm, rfl⟩ := ha
    by_cases hb : (b.id == id && b.status == ActionStatus.pending) = true
    · simp [hb]
    · rw [if_neg (by simpa using hb)] at hid ⊢
      intro hpend
      exact hb (by simp [hid, hpend])
  · intro a ha hid
    simp only [denyAction, List.mem_map] at ha
    obtain ⟨b, hbm, rfl⟩ := ha
    by_cases hb : (b.id == id && b.status == ActionStatus.pending) = true
    · simp [hb]
    · rw [if_neg (by simpa using hb)] at hid ⊢
      intro hpend
      exact hb (by simp [hid, hpend])

/-- C3 witness: on a store whose only row is already `approved`, both
resolution calls report `null` and change nothing. -/
theorem action_resolution_idempotent_witness :
    handleApprove resolvedStore 9 "a1" = (none, resolvedStore) ∧
    handleDeny resolvedStore 9 "a1" = (none, resolvedStore) :=
  (action_resolution_idempotent resolvedStore 9 7 "a1").1 (by decide)

/-! ## C6: the expiry sweep -/

/-- C6: the sweep keeps every row in place; a row still `pending` and
created more than `maxAgeMs` before `now` becomes `expired` with its
resolution timestamp stamped, every other row is returned unchanged,
and the reported count is the number of rows so transitioned. -/
theorem expire_sweep_spec (st : ActionStore) (now maxAgeMs : Nat) :
    ((expireOldActions st now maxAgeMs).1.rows.length = st.rows.length) ∧
    (∀ i : Nat, ∀ a : Action, st.rows[i]? = some a →
      ((a.status = ActionStatus.pending ∧ a.created_at + maxAgeMs < now →
        (expireOldActions st now maxAgeMs).1.rows[i]?
          = some { a with status := ActionStatus.expired, resolved_at := some now }) ∧
       (¬(a.status = ActionStatus.pending ∧ a.created_at + maxAgeMs < now) →
        (expireOldActions st now maxAgeMs).1.rows[i]? = some a))) ∧
    ((expireOldActions st now maxAgeMs).2
      = (st.rows.filter (fun a =>
          a.status == ActionStatus.pending && a.created_at + maxAgeMs < now)).length) := by
  refine ⟨?_, ?_, rfl⟩
  · simp [expireOldActions]
  · intro i a ha
    constructor
    · intro hhit
      unfold expireOldActions
      simp only []
      rw [List.getElem?_map, ha]
      simp [hhit.1, hhit.2]
    · intro hn
      unfold expireOldActions
      simp only []
      rw [List.getElem?_map, ha]
      have hfalse : (a.status == ActionStatus.pending
          && decide (a.created_at + maxAgeMs < now)) = false := by
        by_cases h1 : a.status = ActionStatus.pending
        · have h2 : ¬ a.created_at + maxAgeMs < now := fun h2 => hn ⟨h1, h2⟩
          simp [h1, h2]
        · simp [h1]
      simp only [Option.map_some', hfalse, Bool.false_eq_true, if_false]

/-- C6 witness: at `now = 50` with `maxAgeMs = 10`, the stale pending
row is expired and stamped, the fresh pending row is untouched, and the
sweep reports one transition. -/
theorem expire_sweep_spec_witness :
    (expireOldActions sweepStore 50 10).1.rows[0]?
      = some { pendingOldRow with status := ActionStatus.expired, resolved_at := some 50 } ∧
    (expireOldActions sweepStore 50 10).1.rows[1]? = some pendingNewRow ∧
    (expireOldActions sweepStore 50 10).2 = 1 :=
  ⟨((expire_sweep_spec sweepStore 50 10).2.1 0 pendingOldRow rfl).1 (by decide),
   ((expire_sweep_spec sweepStore 50 10).2.1 1 pendingNewRow rfl).2 (by decide),
   ((expire_sweep_spec sweepStore 50 10).2.2).trans (by decide)⟩

/-! ## C7: trust-rule uniqueness and lookup precedence -/

/-- C7: a `createTrustRule` write preserves key-uniqueness, a write
whose key already exists replaces the decision without adding a row
(and the key's lookup afterwards yields the new decision), and
`findTrustRule` returns the exact `(service, action)` match when one
exists, otherwise the wildcard-service match for that action,
otherwise nothing. -/
theorem trust_rules_unique_replace_lookup (rules : List TrustRule)
    (id service action : String) (d : TrustDecision) :
    (rules.Pairwise (fun r s => ruleKey r ≠ ruleKey s) →
      (createTrustRule rules id service action d).Pairwise
        (fun r s => ruleKey r ≠ ruleKey s)) ∧
    ((rules.any fun r => r.service == service && r.action == action) = true →
      (createTrustRule rules id service action d).length = rules.length) ∧
    (∀ r, findTrustRule (createTrustRule rules id service action d) service action
        = some r → r.service = service ∧ r.action = action ∧ r.decision = d) ∧
    (∀ r, findTrustRule rules service action = some r →
      r ∈ rules ∧ r.action = action ∧
        (r.service = service ∨
          (r.service = "*" ∧ ∀ e ∈ rules, ¬(e.service = service ∧ e.action = action)))) ∧
    (findTrustRule rules service action = none →
      ∀ e ∈ rules, ¬((e.service = service ∨ e.service = "*") ∧ e.action = action)) := by
  have hkey : ∀ x : TrustRule,
      ruleKey (if x.service == service && x.action == action then
        { x with decision := d } else x) = ruleKey x := by
    intro x
    by_cases hx : (x.service == service && x.action == action) = true
    · simp [hx, ruleKey]
    · simp only [Bool.not_eq_true] at hx
      simp [hx]
  have hkeep : ∀ x : TrustRule,
      ((if x.service == service && x.action == action then
          { x with decision := d } else x).service == service &&
       (if x.service == service && x.action == action then
          { x with decision := d } else x).action == action)
        = (x.service == service && x.action == action) := by
    intro x
    by_cases hx : (x.service == service && x.action == action) = true
    · simp [hx]
    · simp only [Bool.not_eq_true] at hx
      simp [hx]
  refine ⟨?_, ?_, ?_, ?_, ?_⟩
  · intro hpw
    unfold createTrustRule
    by_cases hany : (rules.any fun r => r.service == service && r.action == action) = true
    · rw [if_pos hany, List.pairwise_map]
      refine List.Pairwise.imp_of_mem ?_ hpw
      intro r s _ _ hne
      rw [hkey r, hkey s]
      exact hne
    · rw [if_neg hany, List.pairwise_append]
      refine ⟨hpw, by simp, ?_⟩
      intro r hr s hs
      simp only [List.mem_singleton] at hs
      subst hs
      rw [Bool.not_eq_true, List.any_eq_false] at hany
      have := hany r hr
      simp only [Bool.and_eq_true, beq_iff_eq, not_and] at this
      intro hcontra
      simp only [ruleKey, Prod.mk.injEq] at hcontra
      exact this hcontra.1 hcontra.2
  · intro hany
    unfold createTrustRule
    rw [if_pos hany]
    simp
  · intro r hfound
    unfold createTrustRule at hfound
    by_cases hany : (rules.any fun r => r.service == service && r.action == action) = true
    · rw [if_pos hany] at hfound
      cases hr1 : rules.find? (fun r => r.service == service && r.action == action) with
      | none =>
        rw [List.find?_eq_none] at hr1
        obtain ⟨r0, hr0m, hr0p⟩ := List.any_eq_true.mp hany
        exact absurd hr0p (by simpa using hr1 r0 hr0m)
      | some r1 =>
        unfold findTrustRule at hfound
        rw [find?_map_pred rules _ _ hkeep, hr1] at hfound
        have hp1 := List.find?_some hr1
        simp only [Bool.and_eq_true, beq_iff_eq] at hp1
        simp only [Option.map_some', hp1.1, hp1.2, beq_self_eq_true, Bool.and_self,
          if_pos] at hfound
        cases hfound
        simp [hp1.1, hp1.2]
    · rw [if_neg hany] at hfound
      rw [Bool.not_eq_true, List.any_eq_false] at hany
      have hnone : rules.find? (fun r => r.service == service && r.action == action)
          = none := by
        rw [List.find?_eq_none]
        intro x hx
        simp [hany x hx]
      unfold findTrustRule at hfound
      rw [List.find?_append, hnone] at hfound
      simp only [Option.none_or, List.find?] at hfound
      simp only [beq_self_eq_true, Bool.and_self, if_pos] at hfound
      cases hfound
      exact ⟨rfl, rfl, rfl⟩
  · intro r hfound
    unfold findTrustRule at hfound
    cases hex : rules.find? (fun r => r.service == service && r.action == action) with
    | some r0 =>
      rw [hex] at hfound
      cases hfound
      have hp := List.find?_some hex
      simp only [Bool.and_eq_true, beq_iff_eq] at hp
      exact ⟨List.mem_of_find?_eq_some hex, hp.2, Or.inl hp.1⟩
    | none =>
      rw [hex] at hfound
      have hp := List.find?_some hfound
      simp only [Bool.and_eq_true, beq_iff_eq] at hp
      refine ⟨List.mem_of_find?_eq_some hfound, hp.2, Or.inr ⟨hp.1, ?_⟩⟩
      intro e he hcontra
      have := List.find?_eq_none.mp hex e he
      simp only [Bool.and_eq_true, beq_iff_eq, not_and] at this
      exact this hcontra.1 hcontra.2
  · intro hnone e he
    unfold findTrustRule at hnone
    cases hex : rules.find? (fun r => r.service == service && r.action == action) with
    | some r0 =>
      rw [hex] at hnone
      cases hnone
    | none =>
      rw [hex] at hnone
      have h1 := List.find?_eq_none.mp hex e he
      have h2 := List.find?_eq_none.mp hnone e he
      simp only [Bool.and_eq_true, beq_iff_eq, not_and] at h1 h2
      intro hcontra
      rcases hcontra.1 with hs | hs
      · exact h1 hs hcontra.2
      · exact h2 hs hcontra.2

/-- C7 witness: writing `auto_approve` over an existing
`(shell, shell.exec)` rule keeps a single row and the lookup then
returns the new decision; the wildcard rule is found for an unmatched
service. -/
theorem trust_rules_unique_replace_lookup_witness :
    (createTrustRule [⟨"r1", "shell", "shell.exec", TrustDecision.ask⟩]
        "r9" "shell" "shell.exec" TrustDecision.auto_approve).length = 1 ∧
    (∀ r, findTrustRule (createTrustRule
        [⟨"r1", "shell", "shell.exec", TrustDecision.ask⟩]
        "r9" "shell" "shell.exec" TrustDecision.auto_approve) "shell" "shell.exec"
        = some r → r.decision = TrustDecision.auto_approve) :=
  ⟨(trust_rules_unique_replace_lookup
      [⟨"r1", "shell", "shell.exec", TrustDecision.ask⟩]
      "r9" "shell" "shell.exec" TrustDecision.auto_approve).2.1 (by decide),
   fun r hr => ((trust_rules_unique_replace_lookup
      [⟨"r1", "shell", "shell.exec", TrustDecision.ask⟩]
      "r9" "shell" "shell.exec" TrustDecision.auto_approve).2.2.1 r hr).2.2⟩

/-! ## C5: router fallback selects the first healthy slot -/

theorem routeGo_first_healthy {α : Type} (cap : String) (s : Slot α) (a : α)
    (hp : s.probe = Except.ok true) (hc : s.call = Except.ok a) :
    ∀ (before after : List (Slot α)) (i : Nat),
      (∀ t ∈ before, SlotFails t) →
      (routeGo cap (before ++ s :: after) i).1 = Except.ok a ∧
      ∀ e ∈ (routeGo cap (before ++ s :: after) i).2, e.index ≤ i + before.length := by
  intro before
  induction before with
  | nil =>
    intro after i _
    constructor
    · simp [routeGo, hp, hc]
    · intro e he
      simp only [List.nil_append, routeGo, hp, hc, List.mem_cons,
        List.not_mem_nil, or_false] at he
      rcases he with rfl | rfl <;> simp [RouteEvent.index]
  | cons t rest ih =>
    intro after i hf
    have hrest : ∀ u ∈ rest, SlotFails u := fun u hu => hf u (List.mem_cons_of_mem _ hu)
    obtain ⟨hres, hev⟩ := ih after (i + 1) hrest
    have step : ∀ (es : List RouteEvent),
        (∀ e ∈ es, e.index = i) →
        (∀ e ∈ es ++ (routeGo cap (rest ++ s :: after) (i + 1)).2,
          e.index ≤ i + (t :: rest).length) := by
      intro es hes e he
      rcases List.mem_append.mp he with h | h
      · rw [hes e h]
        simp
      · have := hev e h
        simp only [List.length_cons]
        omega
    rcases hf t (List.mem_cons_self _ _) with h1 | h2 | h3
    · simp only [List.cons_append, routeGo, h1]
      exact ⟨hres, step [RouteEvent.probe i] (by simp [RouteEvent.index])⟩
    · simp only [List.cons_append, routeGo, h2]
      exact ⟨hres, step [RouteEvent.probe i] (by simp [RouteEvent.index])⟩
    · cases hpt : t.probe with
      | error u =>
        simp only [List.cons_append, routeGo, hpt]
        exact ⟨hres, step [RouteEvent.probe i] (by simp [RouteEvent.index])⟩
      | ok b =>
        cases b with
        | false =>
          simp only [List.cons_append, routeGo, hpt]
          exact ⟨hres, step [RouteEvent.probe i] (by simp [RouteEvent.index])⟩
        | true =>
          simp only [List.cons_append, routeGo, hpt, h3]
          exact ⟨hres, step [RouteEvent.probe i, RouteEvent.call i]
            (by intro e he; rcases List.mem_cons.mp he with rfl | he2
                · rfl
                · simp only [List.mem_singleton] at he2
                  subst he2
                  rfl)⟩

/-- C5: with every slot before the k-th failing (probe throws, probe
reports unavailable, or the delegated call throws) and the k-th slot
healthy, both `routeChat` and `routeChatStream` return the k-th slot's
result — earlier failures are suppressed, not surfaced — and never
probe or call any slot past the k-th (every trace event's index stays
at or below the healthy slot's position). -/
theorem router_selects_first_healthy_slot (cap : String)
    (before after : List (Slot ChatResponse)) (s : Slot ChatResponse) (a : ChatResponse)
    (sbefore safter : List (Slot (List String × ChatResponse)))
    (ss : Slot (List String × ChatResponse)) (sa : List String × ChatResponse)
    (hb : ∀ t ∈ before, SlotFails t)
    (hp : s.probe = Except.ok true) (hc : s.call = Except.ok a)
    (hsb : ∀ t ∈ sbefore, SlotFails t)
    (hsp : ss.probe = Except.ok true) (hsc : ss.call = Except.ok sa) :
    (routeChat cap (before ++ s :: after)).1 = Except.ok a ∧
    (∀ e ∈ (routeChat cap (before ++ s :: after)).2, e.index ≤ before.length) ∧
    (routeChatStream cap (sbefore ++ ss :: safter)).1 = Except.ok sa ∧
    (∀ e ∈ (routeChatStream cap (sbefore ++ ss :: safter)).2,
      e.index ≤ sbefore.length) := by
  obtain ⟨h1, h2⟩ := routeGo_first_healthy cap s a hp hc before after 0 hb
  obtain ⟨h3, h4⟩ := routeGo_first_healthy cap ss sa hsp hsc sbefore safter 0 hsb
  have hne : (before ++ s :: after).isEmpty = false := by
    cases before <;> simp
  have hne2 : (sbefore ++ ss :: safter).isEmpty = false := by
    cases sbefore <;> simp
  unfold routeChat routeChatStream routeModel
  rw [hne, hne2]
  simp only [Bool.false_eq_true, if_false]
  exact ⟨h1, by simpa using h2, h3, by simpa using h4⟩

/-- C5 witness: a two-failure prefix (unavailable probe, throwing
call), then a healthy slot, then a never-touched tail. -/
theorem router_selects_first_healthy_slot_witness :
    (routeChat "language"
      [⟨Except.ok false, Except.error ()⟩,
       ⟨Except.ok true, Except.error ()⟩,
       ⟨Except.ok true, Except.ok ⟨"hi", "m1", none, []⟩⟩,
       ⟨Except.error (), Except.ok ⟨"no", "m2", none, []⟩⟩]).1
      = Except.ok ⟨"hi", "m1", none, []⟩ ∧
    (routeChatStream "language"
      [⟨Except.ok false, Except.error ()⟩,
       ⟨Except.ok true, Except.ok (["tok"], ⟨"tok", "m3", none, []⟩)⟩]).1
      = Except.ok (["tok"], ⟨"tok", "m3", none, []⟩) := by
  have h := router_selects_first_healthy_slot "language"
    [⟨Except.ok false, Except.error ()⟩, ⟨Except.ok true, Except.error ()⟩]
    [⟨Except.error (), Except.ok ⟨"no", "m2", none, []⟩⟩]
    ⟨Except.ok true, Except.ok ⟨"hi", "m1", none, []⟩⟩ ⟨"hi", "m1", none, []⟩
    [⟨Except.ok false, Except.error ()⟩] []
    ⟨Except.ok true, Except.ok (["tok"], ⟨"tok", "m3", none, []⟩)⟩
    (["tok"], ⟨"tok", "m3", none, []⟩)
    (by intro t ht
        simp only [List.mem_cons, List.not_mem_nil, or_false] at ht
        rcases ht with rfl | rfl
        · exact Or.inr (Or.inl rfl)
        · exact Or.inr (Or.inr rfl))
    rfl rfl
    (by intro t ht
        simp only [List.mem_singleton] at ht
        subst ht
        exact Or.inr (Or.inl rfl))
    rfl rfl
  exact ⟨h.1, h.2.2.1⟩

/-! ## C10: an unknown conversation id is silently created -/

theorem getConversation_create_isSome (S : ConversationStore) (now : Nat)
    (cid : String) (title : Option String) :
    (getConversation (createConversation S now cid title) cid).isSome = true := by
  unfold getConversation createConversation
  rw [List.find?_append]
  cases hfirst : S.rows.find? (fun c => c.id == cid) <;> simp [List.find?]

theorem getConversation_update_timestamp_isSome (S : ConversationStore)
    (now : Nat) (id qid : String) :
    (getConversation (updateConversationTimestamp S now id) qid).isSome
      = (getConversation S qid).isSome := by
  unfold getConversation updateConversationTimestamp
  refine find?_isSome_map _ _ _ ?_
  intro c
  by_cases hc : (c.id == id) = true <;> simp [hc]

theorem getConversation_update_title_isSome (S : ConversationStore)
    (now : Nat) (id : String) (title : String) (qid : String) :
    (getConversation (updateConversationTitle S now id title) qid).isSome
      = (getConversation S qid).isSome := by
  unfold getConversation updateConversationTitle
  refine find?_isSome_map _ _ _ ?_
  intro c
  by_cases hc : (c.id == id) = true <;> simp [hc]

/-- C10: supplying a conversation id that is not in the store does not
fail either entry point: the prelude creates the row under the supplied
id, both `sendMessage` and `streamMessage` then behave exactly as a
call with no id whose minted id is the supplied one, and the
conversation row is still present when the turn finishes. -/
theorem unknown_conversation_id_silently_created
    (backend : Nat → List ChatMessage → Bool → ChatResponse)
    (sbackend : Nat → List ChatMessage → Bool → List String × ChatResponse)
    (parseJson : String → Option Args) (stringifyOutcome : ToolOutcome → String)
    (execTool : Nat → ToolCall → ToolOutcome) (toolsAvailable : Bool)
    (convs : ConversationStore) (msgs : MessageStore) (now : Nat)
    (fresh userMsgId assistantMsgId cid userContent : String) (images : List String)
    (h : getConversation convs cid = none) :
    ensureConversation (some cid) fresh now convs
      = (cid, createConversation convs now cid none) ∧
    sendMessage backend parseJson stringifyOutcome execTool toolsAvailable convs msgs
        now fresh userMsgId assistantMsgId (some cid) userContent
      = sendMessage backend parseJson stringifyOutcome execTool toolsAvailable convs msgs
        now cid userMsgId assistantMsgId none userContent ∧
    streamMessage sbackend parseJson stringifyOutcome execTool toolsAvailable convs msgs
        now fresh userMsgId assistantMsgId (some cid) userContent images
      = streamMessage sbackend parseJson stringifyOutcome execTool toolsAvailable convs msgs
        now cid userMsgId assistantMsgId none userContent images ∧
    (getConversation (sendMessage backend parseJson stringifyOutcome execTool
        toolsAvailable convs msgs now fresh userMsgId assistantMsgId (some cid)
        userContent).convs cid).isSome = true := by
  have hens : ensureConversation (some cid) fresh now convs
      = (cid, createConversation convs now cid none) := by
    simp [ensureConversation, h]
  have hswap : ensureConversation (some cid) fresh now convs
      = ensureConversation none cid now convs := by
    rw [hens]
    rfl
  refine ⟨hens, ?_, ?_, ?_⟩
  · unfold sendMessage
    rw [hswap]
  · unfold streamMessage
    rw [hswap]
  · unfold sendMessage
    simp only [hens]
    by_cases hlen : (listMessages (createMessage msgs
        { id := userMsgId, conversation_id := cid, role := Role.user,
          content := userContent, model := none, tokens_used := none,
          created_at := now }) cid 50).length ≤ 1 <;>
      simp [hlen, getConversation_update_title_isSome,
        getConversation_update_timestamp_isSome, getConversation_create_isSome]

/-- C10 witness: empty stores, a never-seen id `c77`. -/
theorem unknown_conversation_id_silently_created_witness :
    ensureConversation (some "c77") "f1" 5 ⟨[]⟩
      = ("c77", createConversation ⟨[]⟩ 5 "c77" none) ∧
    (getConversation (sendMessage (fun _ _ _ => ⟨"ok", "m", none, []⟩)
        (fun _ => some []) (fun _ => "r") (fun _ _ => ⟨true, none, none⟩) false
        ⟨[]⟩ ⟨[]⟩ 5 "f1" "u1" "a1" (some "c77") "hello").convs "c77").isSome = true := by
  have h := unknown_conversation_id_silently_created
    (fun _ _ _ => ⟨"ok", "m", none, []⟩) (fun _ _ _ => ([], ⟨"ok", "m", none, []⟩))
    (fun _ => some []) (fun _ => "r") (fun _ _ => ⟨true, none, none⟩) false
    ⟨[]⟩ ⟨[]⟩ 5 "f1" "u1" "a1" "c77" "hello" [] rfl
  exact ⟨h.1, h.2.2.2⟩

/-! ## C2: the per-call approval wait -/

theorem getAction_create (st : ActionStore) (now : Nat) (id : String)
    (cid : Option String) (ty : String) (tier : ActionTier) (title : String)
    (desc payload : Option String) (h : getAction st id = none) :
    getAction (createAction st now id cid ty tier title desc payload) id
      = some { id := id, conversation_id := cid, type := ty, tier := tier,
               title := title, description := desc, payload := payload,
               status := ActionStatus.pending, created_at := now,
               resolved_at := none } := by
  unfold getAction at h ⊢
  unfold createAction
  rw [List.find?_append, h]
  simp [List.find?]

theorem pollLoop_ops_readonly (observe : Nat → Option Action) (skill : ToolOutcome)
    (aid : String) : ∀ (fuel k : Nat),
    ∀ op ∈ (pollLoop observe skill aid k fuel).2,
      op = DbOp.sleep WAIT_POLL_MS ∨ op = DbOp.get aid := by
  intro fuel
  induction fuel with
  | zero =>
    intro k op hop
    simp [pollLoop] at hop
  | succ n ih =>
    intro k op hop
    unfold pollLoop at hop
    cases hobs : observe k with
    | none =>
      rw [hobs] at hop
      simp only [List.mem_cons, List.not_mem_nil, or_false] at hop
      rcases hop with rfl | rfl
      · exact Or.inl rfl
      · exact Or.inr rfl
    | some a =>
      rw [hobs] at hop
      dsimp only at hop
      by_cases h1 : a.status = ActionStatus.approved
      · rw [if_pos h1] at hop
        simp only [List.mem_cons, List.not_mem_nil, or_false] at hop
        rcases hop with rfl | rfl
        · exact Or.inl rfl
        · exact Or.inr rfl
      · rw [if_neg h1] at hop
        by_cases h2 : a.status = ActionStatus.denied
        · rw [if_pos h2] at hop
          simp only [List.mem_cons, List.not_mem_nil, or_false] at hop
          rcases hop with rfl | rfl
          · exact Or.inl rfl
          · exact Or.inr rfl
        · rw [if_neg h2] at hop
          simp only [List.cons_append, List.nil_append, List.mem_cons] at hop
          rcases hop with rfl | rfl | hop
          · exact Or.inl rfl
          · exact Or.inr rfl
          · exact ih (k + 1) op hop

theorem applyDbOps_readonly (ops : List DbOp)
    (h : ∀ op ∈ ops, op = DbOp.sleep WAIT_POLL_MS ∨ ∃ s, op = DbOp.get s) :
    ∀ st : ActionStore, applyDbOps ops st = st := by
  induction ops with
  | nil => intro st; rfl
  | cons op t ih =>
    intro st
    have hop := h op (List.mem_cons_self _ _)
    have hstep : applyDbOp st op = st := by
      rcases hop with rfl | ⟨s, rfl⟩ <;> rfl
    have htail : ∀ op ∈ t, op = DbOp.sleep WAIT_POLL_MS ∨
        ∃ s, op = DbOp.get s := fun o ho => h o (List.mem_cons_of_mem _ ho)
    calc applyDbOps (op :: t) st = applyDbOps t (applyDbOp st op) := rfl
      _ = applyDbOps t st := by rw [hstep]
      _ = st := ih htail st

theorem pollLoop_approved (observe : Nat → Option Action) (skill : ToolOutcome)
    (aid : String) : ∀ (m fuel k : Nat), m < fuel →
    (∀ j, j < m → ∃ a, observe (k + j) = some a ∧ a.status = ActionStatus.pending) →
    (∃ a, observe (k + m) = some a ∧ a.status = ActionStatus.approved) →
    (pollLoop observe skill aid k fuel).1 = skill := by
  intro m
  induction m with
  | zero =>
    intro fuel k hf _ hap
    obtain ⟨a, ha, hst⟩ := hap
    rw [Nat.add_zero] at ha
    cases fuel with
    | zero => omega
    | succ n =>
      unfold pollLoop
      rw [ha]
      dsimp only
      rw [if_pos hst]
  | succ m ih =>
    intro fuel k hf hpend hap
    cases fuel with
    | zero => omega
    | succ n =>
      obtain ⟨a, ha, hst⟩ := hpend 0 (Nat.succ_pos m)
      rw [Nat.add_zero] at ha
      unfold pollLoop
      rw [ha]
      dsimp only
      rw [if_neg (by simp [hst]), if_neg (by simp [hst])]
      exact ih n (k + 1) (by omega)
        (fun j hj => by
          have hp := hpend (j + 1) (by omega)
          rwa [show k + (j + 1) = k + 1 + j by omega] at hp)
        (by rwa [show k + 1 + m = k + (m + 1) by omega])

theorem pollLoop_denied (observe : Nat → Option Action) (skill : ToolOutcome)
    (aid : String) : ∀ (m fuel k : Nat), m < fuel →
    (∀ j, j < m → ∃ a, observe (k + j) = some a ∧ a.status = ActionStatus.pending) →
    (∃ a, observe (k + m) = some a ∧ a.status = ActionStatus.denied) →
    (pollLoop observe skill aid k fuel).1
      = { success := false, result := none, error := some "Action denied by user" } := by
  intro m
  induction m with
  | zero =>
    intro fuel k hf _ hde
    obtain ⟨a, ha, hst⟩ := hde
    rw [Nat.add_zero] at ha
    cases fuel with
    | zero => omega
    | succ n =>
      unfold pollLoop
      rw [ha]
      dsimp only
      rw [if_neg (by simp [hst]), if_pos hst]
  | succ m ih =>
    intro fuel k hf hpend hde
    cases fuel with
    | zero => omega
    | succ n =>
      obtain ⟨a, ha, hst⟩ := hpend 0 (Nat.succ_pos m)
      rw [Nat.add_zero] at ha
      unfold pollLoop
      rw [ha]
      dsimp only
      rw [if_neg (by simp [hst]), if_neg (by simp [hst])]
      exact ih n (k + 1) (by omega)
        (fun j hj => by
          have hp := hpend (j + 1) (by omega)
          rwa [show k + (j + 1) = k + 1 + j by omega] at hp)
        (by rwa [show k + 1 + m = k + (m + 1) by omega])

theorem pollLoop_timeout (observe : Nat → Option Action) (skill : ToolOutcome)
    (aid : String) : ∀ (fuel k : Nat),
    (∀ j, j < fuel → ∃ a, observe (k + j) = some a ∧ a.status = ActionStatus.pending) →
    (pollLoop observe skill aid k fuel).1
      = { success := false, result := none,
          error := some "Action approval timed out" } := by
  intro fuel
  induction fuel with
  | zero => intro k _; rfl
  | succ n ih =>
    intro k hpend
    obtain ⟨a, ha, hst⟩ := hpend 0 (Nat.succ_pos n)
    rw [Nat.add_zero] at ha
    unfold pollLoop
    rw [ha]
    dsimp only
    rw [if_neg (by simp [hst]), if_neg (by simp [hst])]
    exact ih (k + 1) (fun j hj => by
      have hp := hpend (j + 1) (by omega)
      rwa [show k + (j + 1) = k + 1 + j by omega] at hp)

/-- C2: the per-call wait for a tool call gated into `pending` polls
at a 1-second interval within a 2-minute budget (120 polls); if the
observed Action becomes `approved` at some poll within the budget
(pending before that), the wait returns the skill execution's outcome —
the tool executes; if `denied`, it fails with "Action denied by user";
if still `pending` at every poll of the budget, it fails with the
timeout message; the wait performs only sleeps and reads, so replaying
its operation trace changes no store — in particular it never marks
anything `expired`; and `executeTool` on a yellow/red tool call with no
matching trust rule is exactly this wait. -/
theorem executeTool_pending_wait_spec (observe : Nat → Option Action)
    (skill : ToolOutcome) (aid : String) :
    (WAIT_POLL_MS = 1000 ∧ WAIT_BUDGET_MS = 120000 ∧ MAX_POLLS = 120) ∧
    (∀ m, m < MAX_POLLS →
      (∀ j, j < m → ∃ a, observe j = some a ∧ a.status = ActionStatus.pending) →
      (∃ a, observe m = some a ∧ a.status = ActionStatus.approved) →
      (pollLoop observe skill aid 0 MAX_POLLS).1 = skill) ∧
    (∀ m, m < MAX_POLLS →
      (∀ j, j < m → ∃ a, observe j = some a ∧ a.status = ActionStatus.pending) →
      (∃ a, observe m = some a ∧ a.status = ActionStatus.denied) →
      (pollLoop observe skill aid 0 MAX_POLLS).1
        = { success := false, result := none,
            error := some "Action denied by user" }) ∧
    ((∀ j, j < MAX_POLLS → ∃ a, observe j = some a ∧ a.status = ActionStatus.pending) →
      (pollLoop observe skill aid 0 MAX_POLLS).1
        = { success := false, result := none,
            error := some "Action approval timed out" }) ∧
    (∀ st : ActionStore, applyDbOps (pollLoop observe skill aid 0 MAX_POLLS).2 st = st) ∧
    (∀ (parseJson : String → Option Args) (stringify : Args → String)
       (parseToolName : String → Option (String × String))
       (getActionTier : String → Option ActionTier)
       (execSkill : String → String → Args → ToolOutcome)
       (gate : GateState) (now : Nat) (tc : ToolCall) (convId : String)
       (args : Args) (skl anm : String) (tier : ActionTier),
      parseJson tc.arguments = some args →
      parseToolName tc.name = some (skl, anm) →
      getActionTier tc.name = some tier →
      tier ≠ ActionTier.green →
      findTrustRule gate.rules (serviceOf (skl ++ "." ++ anm)) (skl ++ "." ++ anm)
        = none →
      getAction gate.actions aid = none →
      ∃ g, executeTool parseJson stringify parseToolName getActionTier execSkill
          gate now aid observe tc convId
        = ((pollLoop observe (execSkill skl anm args) aid 0 MAX_POLLS).1, g,
           (pollLoop observe (execSkill skl anm args) aid 0 MAX_POLLS).2)) := by
  refine ⟨⟨rfl, rfl, by decide⟩, ?_, ?_, ?_, ?_, ?_⟩
  · intro m hm hpend hap
    exact pollLoop_approved observe skill aid m MAX_POLLS 0 hm
      (by simpa using hpend) (by simpa using hap)
  · intro m hm hpend hde
    exact pollLoop_denied observe skill aid m MAX_POLLS 0 hm
      (by simpa using hpend) (by simpa using hde)
  · intro hpend
    exact pollLoop_timeout observe skill aid MAX_POLLS 0 (by simpa using hpend)
  · intro st
    refine applyDbOps_readonly _ ?_ st
    intro op hop
    rcases pollLoop_ops_readonly observe skill aid MAX_POLLS 0 op hop with h | h
    · exact Or.inl h
    · exact Or.inr ⟨aid, h⟩
  · intro parseJson stringify parseToolName getActionTier execSkill gate now tc
      convId args skl anm tier hpj hptn hgat htg hrule hfreshA
    have hins := getAction_create gate.actions now aid (some convId)
      (skl ++ "." ++ anm) tier ("AI wants to run: " ++ (skl ++ "." ++ anm))
      (some ("Arguments: " ++ stringify args)) (some (stringify args)) hfreshA
    refine ⟨(submitAction gate now aid
      { type := skl ++ "." ++ anm, tier := tier,
        title := "AI wants to run: " ++ (skl ++ "." ++ anm),
        description := some ("Arguments: " ++ stringify args),
        payload := some (stringify args), conversationId := some convId }).2, ?_⟩
    unfold executeTool
    rw [hpj]
    dsimp only
    rw [hptn]
    dsimp only
    rw [hgat]
    dsimp only
    rw [if_neg htg]
    unfold submitAction
    dsimp only
    rw [hrule, if_neg htg, hins]
    dsimp only
    rfl

/-- C2 witness: an action observed `approved` at the first poll makes
the wait return the skill outcome; one observed `pending` forever times
out with the timeout message; and replaying the wait's operation trace
leaves a store untouched. -/
theorem executeTool_pending_wait_spec_witness :
    (pollLoop (fun _ => some resolvedRow) ⟨true, some "ok", none⟩ "a1" 0 MAX_POLLS).1
      = ⟨true, some "ok", none⟩ ∧
    (pollLoop (fun _ => some pendingOldRow) ⟨true, some "ok", none⟩ "a1" 0 MAX_POLLS).1
      = ⟨false, none, some "Action approval timed out"⟩ ∧
    applyDbOps (pollLoop (fun _ => some pendingOldRow) ⟨true, some "ok", none⟩
      "a1" 0 MAX_POLLS).2 resolvedStore = resolvedStore :=
  ⟨(executeTool_pending_wait_spec (fun _ => some resolvedRow)
      ⟨true, some "ok", none⟩ "a1").2.1 0 (by decide)
      (fun j hj => absurd hj (Nat.not_lt_zero j)) ⟨resolvedRow, rfl, rfl⟩,
   (executeTool_pending_wait_spec (fun _ => some pendingOldRow)
      ⟨true, some "ok", none⟩ "a1").2.2.2.1
      (fun j _ => ⟨pendingOldRow, rfl, rfl⟩),
   (executeTool_pending_wait_spec (fun _ => some pendingOldRow)
      ⟨true, some "ok", none⟩ "a1").2.2.2.2.1 resolvedStore⟩

/-! ## C8: cancellation mid-stream -/

theorem runToolCalls_no_done (parseJson : String → Option Args)
    (stringifyOutcome : ToolOutcome → String)
    (execTool : Nat → ToolCall → ToolOutcome) :
    ∀ (tcs : List ToolCall) (ti : Nat),
      ∀ ch ∈ (runToolCalls parseJson stringifyOutcome execTool ti tcs).1,
        ch.isDone = false := by
  intro tcs
  induction tcs with
  | nil =>
    intro ti ch hch
    simp [runToolCalls] at hch
  | cons tc rest ih =>
    intro ti ch hch
    unfold runToolCalls at hch
    dsimp only at hch
    rcases List.mem_cons.mp hch with rfl | hch2
    · rfl
    · rcases List.mem_cons.mp hch2 with rfl | hch3
      · rfl
      · exact ih (ti + 1) ch hch3

theorem streamLoop_no_done
    (sbackend : Nat → List ChatMessage → Bool → List String × ChatResponse)
    (parseJson : String → Option Args) (stringifyOutcome : ToolOutcome → String)
    (execTool : Nat → ToolCall → ToolOutcome) (toolsOffered : Bool) :
    ∀ (fuel ci ti : Nat) (msgs : List ChatMessage) (acc : String)
      (model : Option String) (tu : Option Nat) (had : Bool),
      ∀ ch ∈ (streamLoop sbackend parseJson stringifyOutcome execTool toolsOffered
          fuel ci ti msgs acc model tu had).chunks, ch.isDone = false := by
  intro fuel
  induction fuel with
  | zero =>
    intro ci ti msgs acc model tu had ch hch
    simp [streamLoop] at hch
  | succ n ih =>
    intro ci ti msgs acc model tu had ch hch
    unfold streamLoop at hch
    dsimp only at hch
    by_cases hempty : (sbackend ci msgs toolsOffered).2.tool_calls.isEmpty = true
    · rw [if_pos hempty] at hch
      dsimp only at hch
      obtain ⟨tok, _, rfl⟩ := List.mem_map.mp hch
      rfl
    · rw [if_neg hempty] at hch
      dsimp only at hch
      rcases List.mem_append.mp hch with h1 | h2
      · rcases List.mem_append.mp h1 with h3 | h4
        · obtain ⟨tok, _, rfl⟩ := List.mem_map.mp h3
          rfl
        · exact runToolCalls_no_done parseJson stringifyOutcome execTool _ _ ch h4
      · exact ih _ _ _ _ _ _ _ ch h2

theorem consumeStream_threshold (corr pcid : String) (c : Nat) :
    ∀ (chunks : List StreamChunk) (i : Nat), i ≤ c → c - i < chunks.length →
      consumeStream (fun j => decide (c ≤ j)) corr pcid chunks i
        = (((chunks.take (c - i)).map (forwardChunk corr pcid)).join, c - i + 1) := by
  intro chunks
  induction chunks with
  | nil =>
    intro i h1 h2
    simp at h2
  | cons ch rest ih =>
    intro i h1 h2
    unfold consumeStream
    by_cases hci : c ≤ i
    · have hc : c = i := Nat.le_antisymm hci h1
      subst hc
      rw [if_pos (by simp)]
      simp [Nat.sub_self]
    · have hlt : i < c := Nat.lt_of_not_le hci
      rw [if_neg (by simp [hci])]
      have hrec := ih (i + 1) (by omega) (by
        simp only [List.length_cons] at h2
        omega)
      rw [hrec]
      have hsub : c - i = (c - (i + 1)) + 1 := by omega
      rw [hsub]
      simp [List.take_succ_cons]

/-- Every chunk of a `streamMessage` run strictly before the final one
is not `done`: the `done` chunk is yielded exactly once, last, right
after the final assistant message is persisted. -/
theorem take_no_done_of_append (B : List StreamChunk) (d : StreamChunk) (n : Nat)
    (hB : ∀ ch ∈ B, ch.isDone = false) (hn : n < (B ++ [d]).length) :
    ∀ ch ∈ (B ++ [d]).take n, ch.isDone = false := by
  intro ch hch
  have hlen : n ≤ B.length := by
    simp only [List.length_append, List.length_singleton] at hn
    omega
  rw [List.take_append_of_le_length hlen] at hch
  exact hB ch (List.take_subset _ _ hch)

theorem streamMessage_take_no_done
    (sbackend : Nat → List ChatMessage → Bool → List String × ChatResponse)
    (parseJson : String → Option Args) (stringifyOutcome : ToolOutcome → String)
    (execTool : Nat → ToolCall → ToolOutcome) (toolsAvailable : Bool)
    (convs : ConversationStore) (msgs : MessageStore) (now : Nat)
    (freshConvId userMsgId assistantMsgId : String) (conversationId : Option String)
    (userContent : String) (images : List String) (n : Nat)
    (hn : n < (streamMessage sbackend parseJson stringifyOutcome execTool
        toolsAvailable convs msgs now freshConvId userMsgId assistantMsgId
        conversationId userContent images).chunks.length) :
    ∀ ch ∈ (streamMessage sbackend parseJson stringifyOutcome execTool
        toolsAvailable convs msgs now freshConvId userMsgId assistantMsgId
        conversationId userContent images).chunks.take n, ch.isDone = false := by
  unfold streamMessage at hn ⊢
  dsimp only at hn ⊢
  refine take_no_done_of_append _ _ n ?_ hn
  intro ch hmem
  rcases List.mem_append.mp hmem with h1 | h2
  · exact streamLoop_no_done sbackend parseJson stringifyOutcome execTool
      toolsAvailable _ _ _ _ _ _ _ _ ch h1
  · split at h2
    · dsimp only at h2
      obtain ⟨tok, _, rfl⟩ := List.mem_map.mp h2
      rfl
    · simp at h2

/-- C8: when a turn's stream is cancelled at pull index `c` strictly
before the terminal `done` chunk, the handler forwards exactly the
events of the first `c` chunks (so no `chat.token` after the
cancellation is observed is sent for that correlation id), pulls
nothing past chunk `c`, and the final assistant message is never
persisted, because the persist is attached to producing the `done`
chunk, which is never pulled. -/
theorem cancel_stops_tokens_and_persistence
    (sbackend : Nat → List ChatMessage → Bool → List String × ChatResponse)
    (parseJson : String → Option Args) (stringifyOutcome : ToolOutcome → String)
    (execTool : Nat → ToolCall → ToolOutcome) (toolsAvailable : Bool)
    (convs : ConversationStore) (msgs : MessageStore) (now : Nat)
    (freshConvId userMsgId assistantMsgId : String) (conversationId : Option String)
    (userContent : String) (images : List String) (corr pcid : String) (c : Nat)
    (hc : c + 1 < (streamMessage sbackend parseJson stringifyOutcome execTool
        toolsAvailable convs msgs now freshConvId userMsgId assistantMsgId
        conversationId userContent images).chunks.length) :
    handleChatSend (fun i => decide (c ≤ i)) corr pcid
        (streamMessage sbackend parseJson stringifyOutcome execTool toolsAvailable
          convs msgs now freshConvId userMsgId assistantMsgId conversationId
          userContent images).chunks
      = ((((streamMessage sbackend parseJson stringifyOutcome execTool toolsAvailable
            convs msgs now freshConvId userMsgId assistantMsgId conversationId
            userContent images).chunks.take c).map (forwardChunk corr pcid)).join,
         c + 1) ∧
    finalMessagePersisted
        (streamMessage sbackend parseJson stringifyOutcome execTool toolsAvailable
          convs msgs now freshConvId userMsgId assistantMsgId conversationId
          userContent images).chunks
        (handleChatSend (fun i => decide (c ≤ i)) corr pcid
          (streamMessage sbackend parseJson stringifyOutcome execTool toolsAvailable
            convs msgs now freshConvId userMsgId assistantMsgId conversationId
            userContent images).chunks).2
      = false := by
  have h1 := consumeStream_threshold corr pcid c
    (streamMessage sbackend parseJson stringifyOutcome execTool toolsAvailable
      convs msgs now freshConvId userMsgId assistantMsgId conversationId
      userContent images).chunks 0 (Nat.zero_le c) (by omega)
  rw [Nat.sub_zero] at h1
  have h2 : handleChatSend (fun i => decide (c ≤ i)) corr pcid
      (streamMessage sbackend parseJson stringifyOutcome execTool toolsAvailable
        convs msgs now freshConvId userMsgId assistantMsgId conversationId
        userContent images).chunks
      = ((((streamMessage sbackend parseJson stringifyOutcome execTool toolsAvailable
            convs msgs now freshConvId userMsgId assistantMsgId conversationId
            userContent images).chunks.take c).map (forwardChunk corr pcid)).join,
         c + 1) := by
    unfold handleChatSend
    exact h1
  refine ⟨h2, ?_⟩
  rw [h2]
  unfold finalMessagePersisted
  rw [List.any_eq_false]
  intro ch hch
  have hnd := streamMessage_take_no_done sbackend parseJson stringifyOutcome execTool
    toolsAvailable convs msgs now freshConvId userMsgId assistantMsgId
    conversationId userContent images (c + 1) (by omega) ch hch
  simp [hnd]

/-- C8 witness: cancelling at pull index 1 of a three-chunk stream
(`token "a"`, `token "b"`, `done`) forwards only the first token, pulls
two chunks, and never persists the final assistant message. -/
theorem cancel_stops_tokens_and_persistence_witness :
    handleChatSend (fun i => decide (1 ≤ i)) "m1" "" demoChunks
      = (((demoChunks.take 1).map (forwardChunk "m1" "")).join, 1 + 1) ∧
    finalMessagePersisted demoChunks
      (handleChatSend (fun i => decide (1 ≤ i)) "m1" "" demoChunks).2 = false :=
  cancel_stops_tokens_and_persistence demoStream (fun _ => some []) (fun _ => "r")
    (fun _ _ => ⟨true, none, none⟩) false ⟨[]⟩ ⟨[]⟩ 0 "c1" "u1" "a1" none "hi" []
    "m1" "" 1 (by decide)

/-! ## C1: the post-loop tool-free round -/

/-- C1: on a turn whose first round requests a tool call and whose
second round produces none, the bounded loop of `sendMessage` ends
after two rounds with the last executed round free of tool calls — yet
`sendMessage` still performs the extra tool-free backend call (three
backend calls in total), because its `hadToolCalls` flag, unlike
`streamMessage`'s, is never reset per round. `streamMessage` on the
same turn performs no extra call (two backend calls) and exits with
`hadToolCalls` false. -/
theorem sendMessage_extra_round_after_early_exit :
    c1SyncOut.loopResponses.length = 2 ∧
    c1SyncOut.loopResponses.getLast?.map ChatResponse.tool_calls = some [] ∧
    c1SyncOut.extraCall = true ∧
    c1SyncOut.backendCalls = 3 ∧
    c1StreamOut.lastRoundHadToolCalls = false ∧
    c1StreamOut.extraCall = false ∧
    c1StreamOut.backendCalls = 2 := by
  decide

end FutureBox
